import Mathlib

/-!
Shallow embedding of the OpenAstroTracker interactive menu subsystem:
the keypad debounce state machine (KeypadDevice), the menu model and
scrolling/centering renderer (FullLcdMenu), and the display backend
character-translation tables (HD44780 / SSD1306 variants).

Machine bytes (`byte` = uint8_t) are modelled as `Nat` reduced mod 256 where
the C++ performs a narrowing assignment; `millis()` (uint32_t) timestamps are
modelled as `Nat` with explicit mod-2^32 subtraction.
-/

/-! ### Keypad device: debounce state machine -/

/-- 2^32, the modulus of `uint32_t` arithmetic used by `millis()`. -/
def U32 : Nat := 4294967296

/-- Wrapping `uint32_t` subtraction `a - b`. -/
def u32sub (a b : Nat) : Nat := (a % U32 + U32 - b % U32) % U32

/-- `KeypadDevice::DEBOUNCE_PERIOD` (ms). -/
def DEBOUNCE_PERIOD : Nat := 5

/-- The mutable fields of `KeypadDevice`:
`_currentKey`, `_analogKeyValue`, `_lastKeyChange`, `_lastKey`, `_newKey`,
`_lastNewKey`. -/
structure KeypadState where
  currentKey : Nat
  analogKeyValue : Int
  lastKeyChange : Nat
  lastKey : Nat
  newKey : Nat
  lastNewKey : Nat
deriving DecidableEq, Repr

/-- Constructor initialisation: `_currentKey(-1)`, `_analogKeyValue(0)`,
`_lastKeyChange(0)`, `_lastKey(-2)`, `_newKey(-1)`, `_lastNewKey(-2)`;
the `-1`/`-2` initialisers narrow to bytes 255/254. -/
def initKeypadState : KeypadState :=
  { currentKey := 255, analogKeyValue := 0, lastKeyChange := 0,
    lastKey := 254, newKey := 255, lastNewKey := 254 }

/-- One poll of the keypad hardware: the raw key and analog sample returned by
`readKeypadState`, together with the `millis()` reading of that poll. -/
structure Poll where
  raw : Nat
  analog : Int
  time : Nat
deriving DecidableEq, Repr

/-- `KeypadDevice::debounceKeypad`: read the raw state; on a raw change
restart the debounce timer, otherwise commit the raw key to `_newKey` once it
has been unchanged for strictly more than `DEBOUNCE_PERIOD` ms. -/
def debounceKeypad (p : Poll) (s : KeypadState) : KeypadState :=
  let s := { s with currentKey := p.raw, analogKeyValue := p.analog }
  if p.raw ≠ s.lastKey then
    { s with lastKey := p.raw, lastKeyChange := p.time % U32 }
  else if u32sub p.time s.lastKeyChange > DEBOUNCE_PERIOD then
    { s with newKey := p.raw }
  else
    s

/-- `KeypadDevice::currentKey`: debounce, then report `_newKey`. -/
def currentKey (p : Poll) (s : KeypadState) : Nat × KeypadState :=
  let s := debounceKeypad p s
  (s.newKey, s)

/-- `KeypadDevice::currentState`: debounce, then report `_currentKey`. -/
def currentState (p : Poll) (s : KeypadState) : Nat × KeypadState :=
  let s := debounceKeypad p s
  (s.currentKey, s)

/-- `KeypadDevice::keyChanged(byte* pNewKey)`: debounce, then report `true`
and write `_newKey` through the out-parameter exactly when `_newKey` differs
from `_lastNewKey`. The result is `(returned bool, value of *pNewKey after
the call, state after the call)` given `pNewKey`'s prior contents. -/
def keyChanged (p : Poll) (pNewKey : Nat) (s : KeypadState) :
    Bool × Nat × KeypadState :=
  let s := debounceKeypad p s
  if s.newKey ≠ s.lastNewKey then
    (true, s.newKey, { s with lastNewKey := s.newKey })
  else
    (false, pNewKey, s)

/-- Fold `debounceKeypad` over a sequence of polls (the state evolution shared
by `currentKey`, `currentState` and `keyChanged`). -/
def runPolls (s : KeypadState) : List Poll → KeypadState
  | [] => s
  | p :: ps => runPolls (debounceKeypad p s) ps

/-- A poll that commits a raw value other than `K`: the raw value equals
`_lastKey` (unchanged since the last raw change) and has been held strictly
longer than `DEBOUNCE_PERIOD`, so `debounceKeypad` sets `_newKey` to it. -/
def commitsOther (K : Nat) (s : KeypadState) (p : Poll) : Bool :=
  p.raw != K && p.raw == s.lastKey &&
    decide (u32sub p.time s.lastKeyChange > DEBOUNCE_PERIOD)

/-- No poll of the sequence ever commits a raw value other than `K`. -/
def noOtherCommit (K : Nat) (s : KeypadState) : List Poll → Bool
  | [] => true
  | p :: ps => !commitsOther K s p && noOtherCommit K (debounceKeypad p s) ps

/-- Every poll of the sequence, issued through `currentKey`, returns `K`. -/
def pollsReturn (K : Nat) (s : KeypadState) : List Poll → Bool
  | [] => true
  | p :: ps =>
      (currentKey p s).1 == K && pollsReturn K (currentKey p s).2 ps

/-- Keypad state transition of one `keyChanged` call (out-parameter dropped). -/
def kcStep (s : KeypadState) (p : Poll) : KeypadState :=
  (keyChanged p 0 s).2.2

/-- Along a sequence of `keyChanged` calls, the committed key `_newKey` equals
`k` after every call's internal `debounceKeypad`. -/
def staysCommitted (k : Nat) (s : KeypadState) : List Poll → Bool
  | [] => true
  | p :: ps =>
      (debounceKeypad p s).newKey == k && staysCommitted k (kcStep s p) ps

/-- Every `keyChanged` call of the sequence returns `false`. -/
def kcAllFalse (s : KeypadState) : List Poll → Bool
  | [] => true
  | p :: ps => !(keyChanged p 0 s).1 && kcAllFalse (kcStep s p) ps

/-! ### Display geometry and backend operations -/

/-- `DisplayDevice::NUM_ROWS` (all concrete display variants declare 2). -/
def NUM_ROWS : Nat := 2

/-- `DisplayDevice::NUM_COLUMNS` (all concrete display variants declare 16). -/
def NUM_COLUMNS : Nat := 16

/-- A call issued to the display backend (`_display.setCursor` /
`_display.printChar`). -/
inductive DispOp where
  | setCursor (col row : Nat)
  | printChar (ch : Char)
deriving DecidableEq, Repr

/-- Character-grid display hardware: a cursor and the glyphs shown on each of
the two rows (each row a list of `NUM_COLUMNS` characters). `printChar`
writes at the cursor and advances one column, wrapping to the next row at the
column limit. -/
structure Screen where
  cursorCol : Nat
  cursorRow : Nat
  row0 : List Char
  row1 : List Char
deriving DecidableEq, Repr

/-- The glyph row `r` of the screen. -/
def screenRowAt (scr : Screen) (r : Nat) : List Char :=
  if r = 0 then scr.row0 else scr.row1

/-- Replace glyph row `r` of the screen. -/
def screenSetRow (scr : Screen) (r : Nat) (cs : List Char) : Screen :=
  if r = 0 then { scr with row0 := cs } else { scr with row1 := cs }

/-- Apply one backend call to the screen. -/
def applyOp (scr : Screen) : DispOp → Screen
  | .setCursor col row => { scr with cursorCol := col, cursorRow := row }
  | .printChar ch =>
      let written := screenSetRow scr scr.cursorRow
        ((screenRowAt scr scr.cursorRow).set scr.cursorCol ch)
      if scr.cursorCol + 1 ≥ NUM_COLUMNS then
        { written with cursorCol := 0, cursorRow := (scr.cursorRow + 1) % NUM_ROWS }
      else
        { written with cursorCol := scr.cursorCol + 1 }

/-- Apply a sequence of backend calls to the screen. -/
def applyOps (scr : Screen) (ops : List DispOp) : Screen :=
  ops.foldl applyOp scr

/-- A blank screen: both rows all spaces, cursor at the origin. -/
def blankScreen : Screen :=
  { cursorCol := 0, cursorRow := 0,
    row0 := List.replicate NUM_COLUMNS ' ',
    row1 := List.replicate NUM_COLUMNS ' ' }

/-! ### Menu model and renderer (`FullLcdMenu`) -/

/-- A `MenuItem`: display label and identifier. -/
structure MenuItem where
  display : String
  id : Nat
deriving DecidableEq, Repr

/-- The mutable fields of `FullLcdMenu` relevant to the menu model and
renderer: `_menuItems` (with `_numMenuItems` = its length),
`_activeMenuIndex`, `_longestDisplay`, `_activeRow`, `_activeCol`, and
`_lastDisplay[NUM_ROWS]`. -/
structure MenuSt where
  menuItems : List MenuItem
  activeMenuIndex : Nat
  longestDisplay : Nat
  activeRow : Nat
  activeCol : Nat
  lastDisplay0 : String
  lastDisplay1 : String
deriving DecidableEq, Repr

/-- Constructor initialisation: no items, `_activeMenuIndex = 0`,
`_longestDisplay = 0`, `_activeRow(-1)`, `_activeCol(-1)` (bytes 255), empty
`_lastDisplay` cache for every row. -/
def initMenuSt : MenuSt :=
  { menuItems := [], activeMenuIndex := 0, longestDisplay := 0,
    activeRow := 255, activeCol := 255, lastDisplay0 := "", lastDisplay1 := "" }

/-- `_lastDisplay[row]` (rows 0 and 1 exist on the 2-row display). -/
def lastDisplayAt (st : MenuSt) (row : Nat) : String :=
  if row = 0 then st.lastDisplay0 else if row = 1 then st.lastDisplay1 else ""

/-- Assign `_lastDisplay[row]`. -/
def setLastDisplay (st : MenuSt) (row : Nat) (line : String) : MenuSt :=
  if row = 0 then { st with lastDisplay0 := line }
  else if row = 1 then { st with lastDisplay1 := line }
  else st

/-- `FullLcdMenu::findById`: linear scan for the first item with the given
id, `none` when absent. -/
def findById (st : MenuSt) (id : Nat) : Option MenuItem :=
  st.menuItems.find? (fun it => it.id == id)

/-- `FullLcdMenu::addItem`: append the item and update `_longestDisplay`
(a byte) with the label length. -/
def addItem (st : MenuSt) (disp : String) (id : Nat) : MenuSt :=
  { st with menuItems := st.menuItems ++ [⟨disp, id⟩],
            longestDisplay := max st.longestDisplay disp.length % 256 }

/-- `FullLcdMenu::getActive`: the id of `_menuItems[_activeMenuIndex]`. -/
def getActive (st : MenuSt) : Nat :=
  (st.menuItems.getD st.activeMenuIndex ⟨"", 0⟩).id

/-- `FullLcdMenu::setActive`: linear scan; on the first item with the given
id, set `_activeMenuIndex` and stop. No match leaves the state unchanged. -/
def setActive (st : MenuSt) (id : Nat) : MenuSt :=
  match st.menuItems.findIdx? (fun it => it.id == id) with
  | some i => { st with activeMenuIndex := i }
  | none => st

/-- `FullLcdMenu::setCursor`: record `_activeRow` / `_activeCol` (does not
touch the display hardware). -/
def setCursor (st : MenuSt) (col row : Nat) : MenuSt :=
  { st with activeRow := row, activeCol := col }

/-- `FullLcdMenu::printMenu`: if `line` differs from the cached row content
or the cursor column is nonzero, cache `line`, position the hardware cursor
and write `line` followed by space padding up to `NUM_COLUMNS`; otherwise do
nothing. Returns the new menu state and the backend calls issued. -/
def printMenu (st : MenuSt) (line : String) : MenuSt × List DispOp :=
  if lastDisplayAt st st.activeRow ≠ line ∨ st.activeCol ≠ 0 then
    let st' := setLastDisplay st st.activeRow line
    let spaces := NUM_COLUMNS - line.length
    (st', DispOp.setCursor st.activeCol st.activeRow ::
          (line.toList.map DispOp.printChar ++
            List.replicate spaces (DispOp.printChar ' ')))
  else
    (st, [])

/-- `FullLcdMenu::printAt`: unconditional single-glyph write at an explicit
position; the menu state (including the row cache) is not touched. -/
def printAt (st : MenuSt) (col row : Nat) (ch : Char) : MenuSt × List DispOp :=
  (st, [DispOp.setCursor col row, DispOp.printChar ch])

/-- The wrapped representation of one item built by `updateDisplay`'s
`sprintf`: `>label<` when active, otherwise `label` between spaces. -/
def wrapItem (isActive : Bool) (item : MenuItem) : String :=
  (if isActive then ">" else " ") ++ item.display ++
    (if isActive then "<" else " ")

/-- The item loop of `FullLcdMenu::updateDisplay`: concatenate every item's
wrapped representation, recording the byte offset (`offsetToActive`) at which
the active item's representation starts. -/
def buildMenuAux (activeIdx : Nat) :
    List MenuItem → Nat → Nat → Nat → String → String × Nat
  | [], _, _, offsetToActive, acc => (acc, offsetToActive)
  | item :: rest, i, offset, offsetToActive, acc =>
      let isActive := i == activeIdx
      let s := wrapItem isActive item
      buildMenuAux activeIdx rest (i + 1) ((offset + s.length) % 256)
        (if isActive then offset else offsetToActive) (acc ++ s)

/-- The full menu string and active-item offset of `updateDisplay`. -/
def buildMenuString (items : List MenuItem) (activeIdx : Nat) : String × Nat :=
  buildMenuAux activeIdx items 0 0 0 ""

/-- The row-building half of `FullLcdMenu::updateDisplay`: blank front
padding while the window offset is negative, then the visible slice of the
menu string up to `usableColumns`, then blank padding to `NUM_COLUMNS`. -/
def renderRow (menuString : String) (offsetToActive longestDisplay : Nat) :
    List Char :=
  let usableColumns : Int := (NUM_COLUMNS : Int) - 1
  let margin : Int := (usableColumns - (longestDisplay : Int)).tdiv 2
  let offsetIntoString : Int := (offsetToActive : Int) - margin
  let frontPad : Nat := (-offsetIntoString).toNat
  let body := (menuString.toList.drop offsetIntoString.toNat).take
    (usableColumns.toNat - frontPad)
  let row := List.replicate frontPad ' ' ++ body
  row ++ List.replicate (NUM_COLUMNS - row.length) ' '

/-- `FullLcdMenu::updateDisplay`: build the menu string, position the
hardware cursor and the menu cursor at (0,0), lay out the fixed-width row,
hand it to `printMenu`, and finally call `setCursor(0, 1)`. -/
def updateDisplay (st : MenuSt) : MenuSt × List DispOp :=
  let ms := buildMenuString st.menuItems st.activeMenuIndex
  let st1 := { st with activeRow := 0, activeCol := 0 }
  let row := String.mk (renderRow ms.1 ms.2 st.longestDisplay)
  let r := printMenu st1 row
  (setCursor r.1 0 1, DispOp.setCursor 0 0 :: r.2)

/-- Modelled from the spec: the implementation of `adjustWrap` (declared in
Utility.hpp as "Adjust the given number by the given adjustment, wrap around
the limits. Limits are inclusive, so they represent the lowest and highest
valid number.") is not among the sources; spec 4.4 specifies wraparound at
both ends, `index = (index + 1) mod count`, for the `setNextActive` call
site `adjustWrap(index, 1, 0, count - 1)`. -/
def adjustWrap (current adjustBy minVal maxVal : Int) : Int :=
  minVal + (current - minVal + adjustBy).emod (maxVal - minVal + 1)

/-- `FullLcdMenu::setNextActive`: advance `_activeMenuIndex` via
`adjustWrap(_, 1, 0, _numMenuItems - 1)` (narrowed to a byte), repaint via
`updateDisplay`, then clear the secondary row with `NUM_COLUMNS` spaces. -/
def setNextActive (st : MenuSt) : MenuSt × List DispOp :=
  let idx := (adjustWrap (st.activeMenuIndex : Int) 1 0
    ((st.menuItems.length : Int) - 1)).toNat % 256
  let r := updateDisplay { st with activeMenuIndex := idx }
  (r.1, r.2 ++ (DispOp.setCursor 0 1 ::
    List.replicate NUM_COLUMNS (DispOp.printChar ' ')))

/-- Menu-state transition of one `setNextActive` call (backend calls
dropped). -/
def stepActive (st : MenuSt) : MenuSt :=
  (setNextActive st).1

/-! ### Backend symbol substitution -/

/-- ASCII 39, the minutes character (apostrophe). -/
def minutesChar : Char := Char.ofNat 39

/-- ASCII 96, the "not tracking" character (backquote). -/
def noTrackingChar : Char := Char.ofNat 96

/-- `HD44780DisplayDevice::translateChar`: CGRAM indices
`SYMBOL_DEGREES = 0`, `SYMBOL_MINUTES = 1`, `SYMBOL_LEFT_ARROW = 2`,
`SYMBOL_RIGHT_ARROW = 3`, `SYMBOL_UP_ARROW = 4`, `SYMBOL_DOWN_ARROW = 5`,
`SYMBOL_NO_TRACKING = 6`, `SYMBOL_TRACKING = 7` for the eight reserved
characters, any other character returned as its own (byte) code. Both
HD44780-based variants (`LcdKeypadShieldDisplayDevice` and
`MCP23008_MCP23017DisplayDevice`) print via `_lcd.write(translateChar(ch))`. -/
def translateChar (ch : Char) : Nat :=
  if ch = '@' then 0
  else if ch = minutesChar then 1
  else if ch = '<' then 2
  else if ch = '>' then 3
  else if ch = '^' then 4
  else if ch = '~' then 5
  else if ch = noTrackingChar then 6
  else if ch = '&' then 7
  else ch.toNat % 256

/-- What one `SSD1306DisplayDevice::printChar` call draws: a glyph from the
open-iconic arrow font, the open-iconic thing font, or the normal 7x14 text
font. -/
inductive SSDGlyph where
  | arrow (code : Nat)
  | thing (code : Nat)
  | normal (code : Nat)
deriving DecidableEq, Repr

/-- `SSD1306DisplayDevice::printChar`: seven special characters are drawn
from the iconic fonts (`64+14` right arrow, `64+13` left arrow, `64+15` up
arrow, `64+12` down arrow, `176` degrees, `64+15` tracking, `64+4` not
tracking); every other character is drawn from the normal font with no
translation. -/
def ssd1306PrintChar (ch : Char) : SSDGlyph :=
  if ch = '>' then .arrow 78
  else if ch = '<' then .arrow 77
  else if ch = '^' then .arrow 79
  else if ch = '~' then .arrow 76
  else if ch = '@' then .normal 176
  else if ch = '&' then .thing 79
  else if ch = noTrackingChar then .thing 68
  else .normal (ch.toNat % 256)

/-- The eight reserved characters of the substitution table (spec 4.1). -/
def reservedChars : List Char :=
  ['@', minutesChar, '<', '>', '^', '~', noTrackingChar, '&']

/-! ### Render-cache coherence (spec 3, RenderCache invariant) -/

/-- A cached row string extended with blanks to the full display width: the
glyph content the row cache stands for. -/
def padRow (s : String) : List Char :=
  s.toList ++ List.replicate (NUM_COLUMNS - s.length) ' '

/-- The RenderCache invariant of the spec: each row's cached last-written
string equals exactly the character content currently shown on the display
hardware for that row. -/
def coherent (st : MenuSt) (scr : Screen) : Prop :=
  scr.row0 = padRow st.lastDisplay0 ∧ scr.row1 = padRow st.lastDisplay1

/-! ### Concrete example states used by the theorems -/

/-- The spec 8 centering example: items `A`, `BB`, `CCC` with ids 1, 2, 3,
added in order and `CCC` made active. -/
def exMenu : MenuSt :=
  setActive (addItem (addItem (addItem initMenuSt "A" 1) "BB" 2) "CCC" 3) 3

/-- A menu state whose caches match a blank screen. -/
def exCoherentMenu : MenuSt :=
  { initMenuSt with lastDisplay0 := "", lastDisplay1 := "" }

/-- `coherent` is decidable (it is a pair of list equalities). -/
instance (st : MenuSt) (scr : Screen) : Decidable (coherent st scr) := by
  unfold coherent; exact inferInstance

/-- A menu state with row 0 cached as `hi` and the cursor at column 0 of
row 0. -/
def exCachedMenu : MenuSt :=
  { initMenuSt with activeRow := 0, activeCol := 0, lastDisplay0 := "hi" }

/-- The screen matching `exCachedMenu`: row 0 shows `hi` padded with blanks,
row 1 is blank. -/
def exCachedScreen : Screen :=
  { cursorCol := 0, cursorRow := 0, row0 := padRow "hi",
    row1 := List.replicate NUM_COLUMNS ' ' }

/-! ## Theorems -/

/-! ### Keypad debounce lemmas -/

theorem debounce_lastNewKey (p : Poll) (s : KeypadState) :
    (debounceKeypad p s).lastNewKey = s.lastNewKey := by
  unfold debounceKeypad
  dsimp only
  split
  · rfl
  · split <;> rfl

theorem debounce_newKey_cases (p : Poll) (s : KeypadState) :
    (debounceKeypad p s).newKey = s.newKey ∨
      ((debounceKeypad p s).newKey = p.raw ∧ p.raw = s.lastKey ∧
        DEBOUNCE_PERIOD < u32sub p.time s.lastKeyChange) := by
  unfold debounceKeypad
  dsimp only
  split
  · exact Or.inl rfl
  · rename_i hne
    split
    · rename_i hd
      exact Or.inr ⟨rfl, by simpa using hne, by simpa using hd⟩
    · exact Or.inl rfl

theorem newKey_hold (K : Nat) (p : Poll) (s : KeypadState)
    (hK : s.newKey = K) (hno : commitsOther K s p = false) :
    (debounceKeypad p s).newKey = K := by
  rcases debounce_newKey_cases p s with h | ⟨h1, h2, h3⟩
  · rw [h, hK]
  · by_cases hrK : p.raw = K
    · rw [h1, hrK]
    · exfalso
      have ht : commitsOther K s p = true := by
        unfold commitsOther
        rw [Bool.and_eq_true, Bool.and_eq_true]
        exact ⟨⟨by simp [hrK], by simp [h2]⟩, decide_eq_true h3⟩
      rw [ht] at hno
      exact absurd hno (by decide)

theorem pollsReturn_aux (K : Nat) :
    ∀ (ps : List Poll) (s : KeypadState), s.newKey = K →
      noOtherCommit K s ps = true → pollsReturn K s ps = true := by
  intro ps
  induction ps with
  | nil => intro s _ _; rfl
  | cons p ps ih =>
      intro s hK hno
      rw [noOtherCommit, Bool.and_eq_true, Bool.not_eq_true'] at hno
      have hK' : (debounceKeypad p s).newKey = K := newKey_hold K p s hK hno.1
      rw [pollsReturn, Bool.and_eq_true]
      exact ⟨by simp [currentKey, hK'], ih _ (by simpa [currentKey] using hK')
        (by simpa [currentKey] using hno.2)⟩

/-- C1: Debounce commit and hold: if the raw key has been `K` since the last
raw-key change (`_lastKey = K`) and a poll reads `K` again strictly more than
`DEBOUNCE_PERIOD` ms after that change, then `currentKey()` returns `K` at
that poll, and it keeps returning `K` on every subsequent poll of any
sequence in which no different raw value is itself held unchanged for longer
than `DEBOUNCE_PERIOD`. -/
theorem debounce_commit_and_hold (s : KeypadState) (K : Nat) (p : Poll)
    (ps : List Poll) (hraw : p.raw = K) (hlast : s.lastKey = K)
    (hdur : DEBOUNCE_PERIOD < u32sub p.time s.lastKeyChange)
    (hps : noOtherCommit K (currentKey p s).2 ps = true) :
    (currentKey p s).1 = K ∧ pollsReturn K (currentKey p s).2 ps = true := by
  have hcommit : (debounceKeypad p s).newKey = K := by
    unfold debounceKeypad
    simp only [hraw, hlast]
    simp [hdur]
  refine ⟨by simpa [currentKey] using hcommit, ?_⟩
  exact pollsReturn_aux K ps _ (by simpa [currentKey] using hcommit) hps

/-- Witness for C1: key 1 pressed at t=0 (raw change), read again at t=6
(> 5 ms later) commits it; a further poll of key 1 at t=7 still returns 1. -/
theorem debounce_commit_and_hold_witness :
    (currentKey ⟨1, 0, 6⟩ (debounceKeypad ⟨1, 0, 0⟩ initKeypadState)).1 = 1 ∧
      pollsReturn 1 (currentKey ⟨1, 0, 6⟩
        (debounceKeypad ⟨1, 0, 0⟩ initKeypadState)).2 [⟨1, 0, 7⟩] = true :=
  debounce_commit_and_hold _ 1 _ _ rfl (by decide) (by decide) (by decide)

/-! ### Keypad edge one-shot lemmas -/

theorem kc_lastNewKey_of_true (p : Poll) (pv : Nat) (s : KeypadState)
    (h : (keyChanged p pv s).1 = true) :
    (keyChanged p pv s).2.2.lastNewKey = (keyChanged p pv s).2.1 := by
  by_cases h' : (debounceKeypad p s).newKey = (debounceKeypad p s).lastNewKey
  · simp [keyChanged, h'] at h
  · simp [keyChanged, h']

theorem kcAllFalse_aux (k : Nat) :
    ∀ (ps : List Poll) (s : KeypadState), s.lastNewKey = k →
      staysCommitted k s ps = true → kcAllFalse s ps = true := by
  intro ps
  induction ps with
  | nil => intro s _ _; rfl
  | cons p ps ih =>
      intro s hlast hstay
      rw [staysCommitted, Bool.and_eq_true, beq_iff_eq] at hstay
      have heq : (debounceKeypad p s).newKey = (debounceKeypad p s).lastNewKey := by
        rw [hstay.1, debounce_lastNewKey, hlast]
      have hfalse : (keyChanged p 0 s).1 = false := by simp [keyChanged, heq]
      have hstate : kcStep s p = debounceKeypad p s := by
        simp [kcStep, keyChanged, heq]
      rw [kcAllFalse, Bool.and_eq_true, Bool.not_eq_true', hstate]
      refine ⟨hfalse, ih _ ?_ (by rw [hstate] at hstay; exact hstay.2)⟩
      rw [debounce_lastNewKey, hlast]

/-- C3: Edge one-shot: if a `keyChanged` call returns `true` (reporting key
`k`), then every call of any following sequence of `keyChanged` calls during
which the committed key stays `k` returns `false`; in particular an
immediately following call with no intervening committed-key change returns
`false`, and `keyChanged` can return `true` again only after the committed
key next changes. -/
theorem keychanged_one_shot (s : KeypadState) (p : Poll) (pv : Nat)
    (ps : List Poll) (h : (keyChanged p pv s).1 = true)
    (hstay : staysCommitted (keyChanged p pv s).2.1
      (keyChanged p pv s).2.2 ps = true) :
    kcAllFalse (keyChanged p pv s).2.2 ps = true :=
  kcAllFalse_aux _ ps _ (kc_lastNewKey_of_true p pv s h) hstay

/-- Witness for C3: the very first `keyChanged` call reports the sentinel
transition (`true`); the immediately following poll 1 ms later, with no new
commit, returns `false`. -/
theorem keychanged_one_shot_witness :
    kcAllFalse (keyChanged ⟨0, 0, 0⟩ 9 initKeypadState).2.2 [⟨0, 0, 1⟩] = true :=
  keychanged_one_shot initKeypadState ⟨0, 0, 0⟩ 9 [⟨0, 0, 1⟩]
    (by decide) (by decide)

/-- C10: `keyChanged(pNewKey)` writes through the out-parameter exactly when
it returns `true` (and then writes the newly committed key); when it returns
`false` the pointed-to byte keeps its prior value. -/
theorem keychanged_out_param (s : KeypadState) (p : Poll) (pv : Nat) :
    (keyChanged p pv s).2.1 =
      if (keyChanged p pv s).1 then (debounceKeypad p s).newKey else pv := by
  by_cases h : (debounceKeypad p s).newKey = (debounceKeypad p s).lastNewKey <;>
    simp [keyChanged, h]



/-! ### Renderer cursor postcondition -/

/-- C7 counterexample: for the concrete menu `["A","BB","CCC"]` with `CCC`
active, `updateDisplay` does not leave the menu cursor on row 0 — the final
`setCursor(0, 1)` call puts it on row 1. -/
theorem cursor_row_counterexample :
    ¬((updateDisplay exMenu).1.activeRow = 0 ∧
      (updateDisplay exMenu).1.activeCol = 0) := by
  decide

/-- C7 amended: after `updateDisplay` returns, the menu's cursor position has
been reset to column 0 of row 1 (the secondary row), not row 0. -/
theorem cursor_row_after_updateDisplay (st : MenuSt) :
    (updateDisplay st).1.activeCol = 0 ∧ (updateDisplay st).1.activeRow = 1 := by
  simp [updateDisplay, setCursor]

/-! ### setActive on a missing identifier -/

theorem findIdx_none_of_no_match (id : Nat) :
    ∀ (l : List MenuItem) (i : Nat), (∀ it ∈ l, it.id ≠ id) →
      List.findIdx? (fun it => it.id == id) l i = none := by
  intro l
  induction l with
  | nil => intro i _; rfl
  | cons a l ih =>
      intro i h
      rw [List.findIdx?_cons]
      have ha : (a.id == id) = false := by
        simp [h a (List.mem_cons_self a l)]
      rw [ha]
      simp only [Bool.false_eq_true, if_false]
      exact ih (i + 1) (fun it hit => h it (List.mem_cons_of_mem a hit))

/-- C8: `setActive` with an identifier that matches no item in the menu is a
silent no-op: the whole menu state (in particular the active index) is
unchanged, so `getActive()` afterwards returns the same id as before. -/
theorem setActive_missing_noop (st : MenuSt) (id : Nat)
    (h : ∀ it ∈ st.menuItems, it.id ≠ id) :
    setActive st id = st ∧ getActive (setActive st id) = getActive st := by
  have hnone : List.findIdx? (fun it => it.id == id) st.menuItems = none :=
    findIdx_none_of_no_match id st.menuItems 0 h
  constructor
  · unfold setActive
    rw [hnone]
  · unfold setActive
    rw [hnone]

/-- Witness for C8: asking for the absent id 9 in the three-item example menu
changes nothing. -/
theorem setActive_missing_noop_witness :
    setActive exMenu 9 = exMenu ∧ getActive (setActive exMenu 9) = getActive exMenu :=
  setActive_missing_noop exMenu 9 (by decide)

/-! ### Centering of the active item -/

/-- C2 counterexample: on the concrete menu `["A","BB","CCC"]` (ids 1,2,3)
with `CCC` active on the 16-column display, the rendered row is not
left-padded with blanks before the active item `>CCC<`: columns 0-5 hold the
preceding items' text `A  BB `, so the row differs from the blank-padded
`      >CCC<     ` the claim describes. -/
theorem centering_counterexample :
    ¬(lastDisplayAt (updateDisplay exMenu).1 0 =
        String.mk (List.replicate 6 ' ' ++ ">CCC<".toList ++ List.replicate 5 ' ') ∧
      ((lastDisplayAt (updateDisplay exMenu).1 0).toList.take 6).all
        (fun c => c == ' ') = true) := by
  decide

/-- C2 amended: on that menu the rendered row is the 16-character string
`A  BB >CCC<     `: the active item's wrapped form `>CCC<` starts exactly at
column `margin = (usableColumns - longestLabelWidth) / 2 = (15 - 3) / 2 = 6`
and is right-padded with blanks to 16 columns, but the columns to its left
hold the tail of the preceding items' wrapped text (`A  BB `), not blanks. -/
theorem centering_amended :
    lastDisplayAt (updateDisplay exMenu).1 0 = "A  BB >CCC<     " ∧
    (lastDisplayAt (updateDisplay exMenu).1 0).length = NUM_COLUMNS ∧
    ((lastDisplayAt (updateDisplay exMenu).1 0).toList.drop 6).take 5 =
      ">CCC<".toList ∧
    (lastDisplayAt (updateDisplay exMenu).1 0).toList.drop 11 =
      List.replicate 5 ' ' ∧
    ((NUM_COLUMNS : Int) - 1 - (exMenu.longestDisplay : Int)).tdiv 2 = 6 := by
  decide

/-! ### Backend symbol substitution -/

/-- C4 counterexample: the SSD1306 backend draws the minutes character `'`
as its literal ASCII code point (39) with the normal text font — no
dedicated-glyph substitution — while the HD44780 backends translate it to
CGRAM slot `SYMBOL_MINUTES`; the eight-character substitution table is
therefore not implemented identically by every backend variant. -/
theorem symbol_substitution_counterexample :
    ssd1306PrintChar minutesChar = SSDGlyph.normal (minutesChar.toNat % 256) ∧
      minutesChar.toNat % 256 = 39 ∧
      translateChar minutesChar ≠ minutesChar.toNat % 256 := by
  decide

/-- C4 amended: the HD44780-based variants substitute all eight reserved
characters with their dedicated CGRAM glyph slots and pass every other
character through unmodified; the SSD1306 variant substitutes only seven of
them, passing the minutes character `'` through as its literal ASCII code
point like any unreserved character. -/
theorem symbol_substitution_amended (ch : Char) (h : ch ∉ reservedChars) :
    translateChar ch = ch.toNat % 256 ∧
    ssd1306PrintChar ch = SSDGlyph.normal (ch.toNat % 256) ∧
    (translateChar '@' = 0 ∧ translateChar minutesChar = 1 ∧
      translateChar '<' = 2 ∧ translateChar '>' = 3 ∧ translateChar '^' = 4 ∧
      translateChar '~' = 5 ∧ translateChar noTrackingChar = 6 ∧
      translateChar '&' = 7) ∧
    (ssd1306PrintChar '>' = SSDGlyph.arrow 78 ∧
      ssd1306PrintChar '<' = SSDGlyph.arrow 77 ∧
      ssd1306PrintChar '^' = SSDGlyph.arrow 79 ∧
      ssd1306PrintChar '~' = SSDGlyph.arrow 76 ∧
      ssd1306PrintChar '@' = SSDGlyph.normal 176 ∧
      ssd1306PrintChar '&' = SSDGlyph.thing 79 ∧
      ssd1306PrintChar noTrackingChar = SSDGlyph.thing 68) ∧
    ssd1306PrintChar minutesChar = SSDGlyph.normal (minutesChar.toNat % 256) := by
  simp only [reservedChars, List.mem_cons, List.not_mem_nil, or_false,
    not_or] at h
  obtain ⟨h1, h2, h3, h4, h5, h6, h7, h8⟩ := h
  refine ⟨?_, ?_, by decide, by decide, by decide⟩
  · simp [translateChar, h1, h2, h3, h4, h5, h6, h7, h8]
  · simp [ssd1306PrintChar, h1, h3, h4, h5, h6, h7, h8]

/-- Witness for C4's amended claim at the unreserved character `a`. -/
theorem symbol_substitution_amended_witness :
    translateChar 'a' = 'a'.toNat % 256 ∧
    ssd1306PrintChar 'a' = SSDGlyph.normal ('a'.toNat % 256) ∧
    (translateChar '@' = 0 ∧ translateChar minutesChar = 1 ∧
      translateChar '<' = 2 ∧ translateChar '>' = 3 ∧ translateChar '^' = 4 ∧
      translateChar '~' = 5 ∧ translateChar noTrackingChar = 6 ∧
      translateChar '&' = 7) ∧
    (ssd1306PrintChar '>' = SSDGlyph.arrow 78 ∧
      ssd1306PrintChar '<' = SSDGlyph.arrow 77 ∧
      ssd1306PrintChar '^' = SSDGlyph.arrow 79 ∧
      ssd1306PrintChar '~' = SSDGlyph.arrow 76 ∧
      ssd1306PrintChar '@' = SSDGlyph.normal 176 ∧
      ssd1306PrintChar '&' = SSDGlyph.thing 79 ∧
      ssd1306PrintChar noTrackingChar = SSDGlyph.thing 68) ∧
    ssd1306PrintChar minutesChar = SSDGlyph.normal (minutesChar.toNat % 256) :=
  symbol_substitution_amended 'a' (by decide)

/-! ### Differential write skip -/

theorem setLastDisplay_activeRow (st : MenuSt) (row : Nat) (line : String) :
    (setLastDisplay st row line).activeRow = st.activeRow := by
  unfold setLastDisplay
  split
  · rfl
  · split <;> rfl

theorem setLastDisplay_activeCol (st : MenuSt) (row : Nat) (line : String) :
    (setLastDisplay st row line).activeCol = st.activeCol := by
  unfold setLastDisplay
  split
  · rfl
  · split <;> rfl

theorem lastDisplayAt_setLastDisplay_self (st : MenuSt) (row : Nat)
    (line : String) (h : row < NUM_ROWS) :
    lastDisplayAt (setLastDisplay st row line) row = line := by
  have h01 : row = 0 ∨ row = 1 := by
    unfold NUM_ROWS at h; omega
  rcases h01 with h0 | h1
  · subst h0; simp [lastDisplayAt, setLastDisplay]
  · subst h1; simp [lastDisplayAt, setLastDisplay]

/-- C6: Differential write skip: when `printMenu` is called with text equal
to the cached last-written string for the current row and the cursor column
is 0, it issues no display-backend calls at all and leaves the entire menu
state (including the row cache) unchanged; consequently, of two consecutive
`printMenu` calls with identical text at column 0, the second issues zero
backend calls. -/
theorem printMenu_skip (st : MenuSt) (line : String)
    (hrow : st.activeRow < NUM_ROWS) (hcol : st.activeCol = 0) :
    (lastDisplayAt st st.activeRow = line → printMenu st line = (st, [])) ∧
    (printMenu (printMenu st line).1 line).2 = [] := by
  have hskip : ∀ st' : MenuSt, lastDisplayAt st' st'.activeRow = line →
      st'.activeCol = 0 → printMenu st' line = (st', []) := by
    intro st' hcache hcol'
    unfold printMenu
    rw [if_neg]
    simp [hcache, hcol']
  refine ⟨fun hcache => hskip st hcache hcol, ?_⟩
  by_cases hcache : lastDisplayAt st st.activeRow = line
  · rw [hskip st hcache hcol]
    rw [hskip st hcache hcol]
  · have h1 : (printMenu st line).1 = setLastDisplay st st.activeRow line := by
      unfold printMenu
      rw [if_pos (Or.inl hcache)]
    rw [h1, hskip (setLastDisplay st st.activeRow line) ?_ ?_]
    · rw [setLastDisplay_activeRow]
      exact lastDisplayAt_setLastDisplay_self st st.activeRow line hrow
    · rw [setLastDisplay_activeCol]
      exact hcol

/-- Witness for C6 at a concrete state: row 0 cached as `hi`, cursor at
column 0, printing `hi` again. -/
theorem printMenu_skip_witness :
    (lastDisplayAt exCachedMenu exCachedMenu.activeRow = "hi" →
      printMenu exCachedMenu "hi" = (exCachedMenu, [])) ∧
    (printMenu (printMenu exCachedMenu "hi").1 "hi").2 = [] :=
  printMenu_skip exCachedMenu "hi" (by decide) rfl

/-! ### Wraparound navigation -/

theorem setLastDisplay_menuItems (st : MenuSt) (row : Nat) (line : String) :
    (setLastDisplay st row line).menuItems = st.menuItems := by
  unfold setLastDisplay
  split
  · rfl
  · split <;> rfl

theorem setLastDisplay_activeMenuIndex (st : MenuSt) (row : Nat) (line : String) :
    (setLastDisplay st row line).activeMenuIndex = st.activeMenuIndex := by
  unfold setLastDisplay
  split
  · rfl
  · split <;> rfl

theorem printMenu_fst_menuItems (st : MenuSt) (line : String) :
    (printMenu st line).1.menuItems = st.menuItems := by
  unfold printMenu
  split
  · exact setLastDisplay_menuItems st st.activeRow line
  · rfl

theorem printMenu_fst_activeMenuIndex (st : MenuSt) (line : String) :
    (printMenu st line).1.activeMenuIndex = st.activeMenuIndex := by
  unfold printMenu
  split
  · exact setLastDisplay_activeMenuIndex st st.activeRow line
  · rfl

theorem updateDisplay_fst_menuItems (st : MenuSt) :
    (updateDisplay st).1.menuItems = st.menuItems :=
  printMenu_fst_menuItems _ _

theorem updateDisplay_fst_activeMenuIndex (st : MenuSt) :
    (updateDisplay st).1.activeMenuIndex = st.activeMenuIndex :=
  printMenu_fst_activeMenuIndex _ _

theorem stepActive_menuItems (st : MenuSt) :
    (stepActive st).menuItems = st.menuItems :=
  updateDisplay_fst_menuItems _

theorem stepActive_activeMenuIndex (st : MenuSt) :
    (stepActive st).activeMenuIndex =
      (adjustWrap (st.activeMenuIndex : Int) 1 0
        ((st.menuItems.length : Int) - 1)).toNat % 256 :=
  updateDisplay_fst_activeMenuIndex _

theorem adjustWrap_next (i N : Nat) (h0 : 0 < N) (h2 : N ≤ 256) :
    (adjustWrap (i : Int) 1 0 ((N : Int) - 1)).toNat % 256 = (i + 1) % N := by
  unfold adjustWrap
  have hN : ((N : Int) - 1 - 0 + 1) = (N : Int) := by ring
  rw [hN]
  have hcast : ((i : Int) - 0 + 1) = ((i + 1 : Nat) : Int) := by push_cast; ring
  rw [hcast]
  have hemod : ((i + 1 : Nat) : Int).emod ((N : Nat) : Int) =
      (((i + 1) % N : Nat) : Int) := by
    rw [Int.natCast_mod]
    rfl
  rw [hemod]
  have : (0 + (((i + 1) % N : Nat) : Int)).toNat = (i + 1) % N := by
    rw [zero_add, Int.toNat_natCast]
  rw [this]
  exact Nat.mod_eq_of_lt (lt_of_lt_of_le (Nat.mod_lt _ h0) h2)

theorem stepActive_iterate :
    ∀ (k : Nat) (st : MenuSt), 0 < st.menuItems.length →
      st.menuItems.length ≤ 256 →
      st.activeMenuIndex < st.menuItems.length →
      (Nat.iterate stepActive k st).menuItems = st.menuItems ∧
      (Nat.iterate stepActive k st).activeMenuIndex =
        (st.activeMenuIndex + k) % st.menuItems.length := by
  intro k
  induction k with
  | zero =>
      intro st h0 h2 h1
      exact ⟨rfl, by simp [Nat.mod_eq_of_lt h1]⟩
  | succ k ih =>
      intro st h0 h2 h1
      rw [Function.iterate_succ_apply]
      have hm : (stepActive st).menuItems = st.menuItems := stepActive_menuItems st
      have hidx : (stepActive st).activeMenuIndex =
          (st.activeMenuIndex + 1) % st.menuItems.length := by
        rw [stepActive_activeMenuIndex]
        exact adjustWrap_next _ _ h0 h2
      have h1' : (stepActive st).activeMenuIndex < (stepActive st).menuItems.length := by
        rw [hidx, hm]
        exact Nat.mod_lt _ h0
      obtain ⟨ha, hb⟩ := ih (stepActive st) (by rw [hm]; exact h0)
        (by rw [hm]; exact h2) h1'
      refine ⟨ha.trans hm, ?_⟩
      rw [hb, hm, hidx, Nat.mod_add_mod]
      congr 1
      omega

/-- C5: Wraparound navigation: for a menu with `N > 0` items (at most 256,
the byte range of the item counter) and a valid active index, applying
`setNextActive` `N` times in succession returns `getActive()` to the id it
held before the first call; each call advances the active index by +1 modulo
`N`. -/
theorem setNextActive_wraparound (st : MenuSt)
    (h0 : 0 < st.menuItems.length)
    (h1 : st.activeMenuIndex < st.menuItems.length)
    (h2 : st.menuItems.length ≤ 256) :
    getActive (Nat.iterate stepActive st.menuItems.length st) = getActive st := by
  obtain ⟨ha, hb⟩ := stepActive_iterate st.menuItems.length st h0 h2 h1
  unfold getActive
  rw [ha, hb, Nat.add_mod_right, Nat.mod_eq_of_lt h1]

/-- Witness for C5: three `setNextActive` calls on the three-item example
menu bring the active id back to 3. -/
theorem setNextActive_wraparound_witness :
    getActive (Nat.iterate stepActive exMenu.menuItems.length exMenu) =
      getActive exMenu :=
  setNextActive_wraparound exMenu (by decide) (by decide) (by decide)

/-! ### Render-cache coherence -/

theorem take_set_succ (l : List Char) (n : Nat) (c : Char) (h : n < l.length) :
    (l.set n c).take (n + 1) = l.take n ++ [c] := by
  rw [List.set_eq_take_cons_drop c h, List.take_append_eq_append_take,
    List.take_take]
  have hlen : (l.take n).length = n := by
    rw [List.length_take]; omega
  rw [hlen]
  have hmin : min (n + 1) n = n := by omega
  rw [hmin]
  have h1 : n + 1 - n = 1 := by omega
  rw [h1]
  rfl

theorem drop_set_ge (l : List Char) (n m : Nat) (c : Char) (h : n < m)
    (hlen : n < l.length) :
    (l.set n c).drop m = l.drop m := by
  rw [List.set_eq_take_cons_drop c hlen, List.drop_append_eq_append_drop]
  have hlen2 : (l.take n).length = n := by
    rw [List.length_take]; omega
  rw [hlen2, List.drop_eq_nil_of_le (by omega : (l.take n).length ≤ m),
    List.nil_append]
  rw [show m - n = (m - n - 1) + 1 from by omega, List.drop_succ_cons,
    List.drop_drop]
  congr 1
  omega

theorem screenRowAt_setRow_self (scr : Screen) (r : Nat) (cs : List Char) :
    screenRowAt (screenSetRow scr r cs) r = cs := by
  unfold screenRowAt screenSetRow
  split <;> simp_all

theorem screenRowAt_setRow_other (scr : Screen) (r : Nat) (cs : List Char)
    (h : r < NUM_ROWS) :
    screenRowAt (screenSetRow scr r cs) (1 - r) = screenRowAt scr (1 - r) := by
  have h01 : r = 0 ∨ r = 1 := by
    unfold NUM_ROWS at h; omega
  rcases h01 with h0 | h1
  · subst h0; simp [screenRowAt, screenSetRow]
  · subst h1; simp [screenRowAt, screenSetRow]

theorem screenSetRow_cursorRow (scr : Screen) (r : Nat) (cs : List Char) :
    (screenSetRow scr r cs).cursorRow = scr.cursorRow := by
  unfold screenSetRow
  split <;> rfl

theorem screenSetRow_cursorCol (scr : Screen) (r : Nat) (cs : List Char) :
    (screenSetRow scr r cs).cursorCol = scr.cursorCol := by
  unfold screenSetRow
  split <;> rfl

theorem screenRowAt_length (scr : Screen) (r : Nat)
    (h0 : scr.row0.length = NUM_COLUMNS) (h1 : scr.row1.length = NUM_COLUMNS) :
    (screenRowAt scr r).length = NUM_COLUMNS := by
  unfold screenRowAt
  split <;> assumption

theorem screenSetRow_row0_length (scr : Screen) (r : Nat) (cs : List Char)
    (hcs : cs.length = NUM_COLUMNS) (h0 : scr.row0.length = NUM_COLUMNS) :
    (screenSetRow scr r cs).row0.length = NUM_COLUMNS := by
  unfold screenSetRow
  split <;> simpa

theorem screenSetRow_row1_length (scr : Screen) (r : Nat) (cs : List Char)
    (hcs : cs.length = NUM_COLUMNS) (h1 : scr.row1.length = NUM_COLUMNS) :
    (screenSetRow scr r cs).row1.length = NUM_COLUMNS := by
  unfold screenSetRow
  split <;> simpa

theorem applyOps_cons (scr : Screen) (op : DispOp) (ops : List DispOp) :
    applyOps scr (op :: ops) = applyOps (applyOp scr op) ops :=
  rfl

theorem applyOps_printChars :
    ∀ (cs : List Char) (scr : Screen),
      scr.cursorCol + cs.length ≤ NUM_COLUMNS →
      scr.cursorRow < NUM_ROWS →
      scr.row0.length = NUM_COLUMNS → scr.row1.length = NUM_COLUMNS →
      screenRowAt (applyOps scr (cs.map DispOp.printChar)) scr.cursorRow =
        (screenRowAt scr scr.cursorRow).take scr.cursorCol ++ cs ++
          (screenRowAt scr scr.cursorRow).drop (scr.cursorCol + cs.length) ∧
      screenRowAt (applyOps scr (cs.map DispOp.printChar)) (1 - scr.cursorRow) =
        screenRowAt scr (1 - scr.cursorRow) := by
  intro cs
  induction cs with
  | nil =>
      intro scr h hr h0 h1
      constructor
      · simp only [List.map_nil, applyOps, List.foldl_nil, List.length_nil,
          Nat.add_zero, List.append_nil]
        rw [List.take_append_drop]
      · rfl
  | cons c cs ih =>
      intro scr h hr h0 h1
      rw [List.map_cons, applyOps_cons]
      have hrowlen : (screenRowAt scr scr.cursorRow).length = NUM_COLUMNS :=
        screenRowAt_length scr scr.cursorRow h0 h1
      have hcol : scr.cursorCol < NUM_COLUMNS := by
        have := List.length_cons c cs ▸ h
        omega
      by_cases hwrap : scr.cursorCol + 1 ≥ NUM_COLUMNS
      · -- last column: the write fills the row and the cursor wraps
        have hc15 : scr.cursorCol = NUM_COLUMNS - 1 := by omega
        have hcs : cs = [] := by
          have hlen := h
          rw [List.length_cons] at hlen
          exact List.length_eq_zero.mp (by omega)
        subst hcs
        have hstep : applyOp scr (DispOp.printChar c) =
            { screenSetRow scr scr.cursorRow
                ((screenRowAt scr scr.cursorRow).set scr.cursorCol c) with
              cursorCol := 0, cursorRow := (scr.cursorRow + 1) % NUM_ROWS } := by
          simp only [applyOp]
          rw [if_pos hwrap]
        rw [List.map_nil]
        constructor
        · show screenRowAt (applyOp scr (DispOp.printChar c)) scr.cursorRow = _
          rw [hstep]
          have hrow1 : screenRowAt
              { screenSetRow scr scr.cursorRow
                  ((screenRowAt scr scr.cursorRow).set scr.cursorCol c) with
                cursorCol := 0, cursorRow := (scr.cursorRow + 1) % NUM_ROWS }
              scr.cursorRow =
              screenRowAt (screenSetRow scr scr.cursorRow
                ((screenRowAt scr scr.cursorRow).set scr.cursorCol c))
                scr.cursorRow := by
            unfold screenRowAt
            rfl
          rw [hrow1, screenRowAt_setRow_self,
            List.set_eq_take_cons_drop c (by omega)]
          simp [List.append_assoc]
        · show screenRowAt (applyOp scr (DispOp.printChar c)) (1 - scr.cursorRow) = _
          rw [hstep]
          have hrow1 : screenRowAt
              { screenSetRow scr scr.cursorRow
                  ((screenRowAt scr scr.cursorRow).set scr.cursorCol c) with
                cursorCol := 0, cursorRow := (scr.cursorRow + 1) % NUM_ROWS }
              (1 - scr.cursorRow) =
              screenRowAt (screenSetRow scr scr.cursorRow
                ((screenRowAt scr scr.cursorRow).set scr.cursorCol c))
                (1 - scr.cursorRow) := by
            unfold screenRowAt
            rfl
          rw [hrow1, screenRowAt_setRow_other _ _ _ hr]
      · -- middle column: write and advance, then the induction hypothesis
        have hstep : applyOp scr (DispOp.printChar c) =
            { screenSetRow scr scr.cursorRow
                ((screenRowAt scr scr.cursorRow).set scr.cursorCol c) with
              cursorCol := scr.cursorCol + 1 } := by
          simp only [applyOp]
          rw [if_neg hwrap]
        set scr1 : Screen :=
          { screenSetRow scr scr.cursorRow
              ((screenRowAt scr scr.cursorRow).set scr.cursorCol c) with
            cursorCol := scr.cursorCol + 1 } with hscr1
        have hrow1 : scr1.cursorRow = scr.cursorRow := by
          rw [hscr1]
          show (screenSetRow scr scr.cursorRow _).cursorRow = scr.cursorRow
          rw [screenSetRow_cursorRow]
        have hcol1 : scr1.cursorCol = scr.cursorCol + 1 := rfl
        have hat1 : ∀ r, screenRowAt scr1 r =
            screenRowAt (screenSetRow scr scr.cursorRow
              ((screenRowAt scr scr.cursorRow).set scr.cursorCol c)) r := by
          intro r
          unfold screenRowAt
          rfl
        have hlen0 : scr1.row0.length = NUM_COLUMNS := by
          rw [hscr1]
          show (screenSetRow scr scr.cursorRow _).row0.length = NUM_COLUMNS
          exact screenSetRow_row0_length _ _ _ (by rw [List.length_set]; exact hrowlen) h0
        have hlen1 : scr1.row1.length = NUM_COLUMNS := by
          rw [hscr1]
          show (screenSetRow scr scr.cursorRow _).row1.length = NUM_COLUMNS
          exact screenSetRow_row1_length _ _ _ (by rw [List.length_set]; exact hrowlen) h1
        have hbound : scr1.cursorCol + cs.length ≤ NUM_COLUMNS := by
          rw [hcol1]
          have := List.length_cons c cs ▸ h
          omega
        obtain ⟨iha, ihb⟩ := ih scr1 hbound (by rw [hrow1]; exact hr) hlen0 hlen1
        rw [hrow1] at iha ihb
        have hself : screenRowAt scr1 scr.cursorRow =
            (screenRowAt scr scr.cursorRow).set scr.cursorCol c := by
          rw [hat1, screenRowAt_setRow_self]
        have hother : screenRowAt scr1 (1 - scr.cursorRow) =
            screenRowAt scr (1 - scr.cursorRow) := by
          rw [hat1, screenRowAt_setRow_other _ _ _ hr]
        rw [hstep]
        constructor
        · have htks := take_set_succ (screenRowAt scr scr.cursorRow)
            scr.cursorCol c (by omega)
          have hdrs := drop_set_ge (screenRowAt scr scr.cursorRow)
            scr.cursorCol (scr.cursorCol + 1 + cs.length) c (by omega) (by omega)
          rw [iha, hself, hcol1, htks, hdrs]
          have harith : scr.cursorCol + 1 + cs.length =
              scr.cursorCol + (c :: cs).length := by
            rw [List.length_cons]
            omega
          rw [harith]
          simp [List.append_assoc]
        · rw [ihb, hother]

/-- C9 counterexample: starting from a state where each row's cache matches
the hardware exactly (blank screen, empty caches), a single `printAt` call —
one of the operations the claim says preserves the correspondence — writes a
glyph to the hardware without updating the row cache, breaking the
invariant. -/
theorem render_cache_counterexample :
    coherent exCoherentMenu blankScreen ∧
      (printAt exCoherentMenu 0 0 'X').1 = exCoherentMenu ∧
      ¬coherent (printAt exCoherentMenu 0 0 'X').1
        (applyOps blankScreen (printAt exCoherentMenu 0 0 'X').2) := by
  decide

/-- C9 amended: the coherence invariant (each row's cache, blank-extended to
the display width, equals the hardware row) is preserved by `printMenu` when
the cursor sits at column 0 of a valid row and the text and caches fit the
display width; but `printAt` and `setNextActive`'s secondary-row clear write
to the hardware without updating the cache, so the invariant does not hold
across every display-writing operation. -/
theorem printMenu_preserves_coherence (m : MenuSt) (scr : Screen)
    (line : String) (hco : coherent m scr) (hcol : m.activeCol = 0)
    (hrow : m.activeRow < NUM_ROWS) (hlen : line.length ≤ NUM_COLUMNS)
    (h0 : m.lastDisplay0.length ≤ NUM_COLUMNS)
    (h1 : m.lastDisplay1.length ≤ NUM_COLUMNS) :
    coherent (printMenu m line).1 (applyOps scr (printMenu m line).2) := by
  by_cases hcache : lastDisplayAt m m.activeRow = line
  · have hskip : printMenu m line = (m, []) := by
      unfold printMenu
      rw [if_neg]
      simp [hcache, hcol]
    rw [hskip]
    exact hco
  · have hwrite : printMenu m line = (setLastDisplay m m.activeRow line,
        DispOp.setCursor m.activeCol m.activeRow ::
          (line.toList.map DispOp.printChar ++
            List.replicate (NUM_COLUMNS - line.length) (DispOp.printChar ' '))) := by
      unfold printMenu
      rw [if_pos (Or.inl hcache)]
    have hops : line.toList.map DispOp.printChar ++
        List.replicate (NUM_COLUMNS - line.length) (DispOp.printChar ' ') =
        (line.toList ++
          List.replicate (NUM_COLUMNS - line.length) ' ').map DispOp.printChar := by
      rw [List.map_append, List.map_replicate]
    rw [hwrite, hcol, hops, applyOps_cons]
    set cs := line.toList ++ List.replicate (NUM_COLUMNS - line.length) ' '
      with hcs
    set scr1 := applyOp scr (DispOp.setCursor 0 m.activeRow) with hscr1
    have hlinelen : line.toList.length = line.length := rfl
    have hcslen : cs.length = NUM_COLUMNS := by
      rw [hcs, List.length_append, List.length_replicate, hlinelen]
      omega
    have hsl0 : scr.row0.length = NUM_COLUMNS := by
      rw [hco.1]
      unfold padRow
      rw [List.length_append, List.length_replicate]
      have : m.lastDisplay0.toList.length = m.lastDisplay0.length := rfl
      omega
    have hsl1 : scr.row1.length = NUM_COLUMNS := by
      rw [hco.2]
      unfold padRow
      rw [List.length_append, List.length_replicate]
      have : m.lastDisplay1.toList.length = m.lastDisplay1.length := rfl
      omega
    have hc1 : scr1.cursorCol = 0 := rfl
    have hr1 : scr1.cursorRow = m.activeRow := rfl
    have hrow0eq : scr1.row0 = scr.row0 := rfl
    have hrow1eq : scr1.row1 = scr.row1 := rfl
    obtain ⟨ha, hb⟩ := applyOps_printChars cs scr1
      (by rw [hc1, hcslen]; omega)
      (by rw [hr1]; exact hrow)
      (by rw [hrow0eq]; exact hsl0)
      (by rw [hrow1eq]; exact hsl1)
    rw [hr1] at ha hb
    rw [hc1] at ha
    have hrowlen1 : (screenRowAt scr1 m.activeRow).length = NUM_COLUMNS := by
      unfold screenRowAt
      split
      · rw [hrow0eq]; exact hsl0
      · rw [hrow1eq]; exact hsl1
    rw [List.take_zero, List.nil_append, Nat.zero_add,
      List.drop_eq_nil_of_le (by rw [hrowlen1, hcslen]),
      List.append_nil] at ha
    have hpadline : padRow line = cs := rfl
    have h01 : m.activeRow = 0 ∨ m.activeRow = 1 := by
      unfold NUM_ROWS at hrow
      omega
    rcases h01 with hR | hR
    · rw [hR] at ha hb
      constructor
      · have hcache0 : (setLastDisplay m m.activeRow line).lastDisplay0 = line := by
          rw [hR]
          simp [setLastDisplay]
        rw [hcache0, hpadline]
        have : screenRowAt (applyOps scr1 (cs.map DispOp.printChar)) 0 =
            (applyOps scr1 (cs.map DispOp.printChar)).row0 := rfl
        rw [← this, ha]
      · have hcache1 : (setLastDisplay m m.activeRow line).lastDisplay1 =
            m.lastDisplay1 := by
          rw [hR]
          simp [setLastDisplay]
        rw [hcache1]
        have : screenRowAt (applyOps scr1 (cs.map DispOp.printChar)) 1 =
            (applyOps scr1 (cs.map DispOp.printChar)).row1 := by
          unfold screenRowAt
          simp
        rw [← this]
        have hb' : screenRowAt (applyOps scr1 (cs.map DispOp.printChar)) 1 =
            screenRowAt scr1 1 := by simpa using hb
        rw [hb']
        have : screenRowAt scr1 1 = scr.row1 := by
          unfold screenRowAt
          simp [hrow1eq]
        rw [this]
        exact hco.2
    · rw [hR] at ha hb
      constructor
      · have hcache0 : (setLastDisplay m m.activeRow line).lastDisplay0 =
            m.lastDisplay0 := by
          rw [hR]
          simp [setLastDisplay]
        rw [hcache0]
        have : screenRowAt (applyOps scr1 (cs.map DispOp.printChar)) 0 =
            (applyOps scr1 (cs.map DispOp.printChar)).row0 := rfl
        rw [← this]
        have hb' : screenRowAt (applyOps scr1 (cs.map DispOp.printChar)) 0 =
            screenRowAt scr1 0 := by simpa using hb
        rw [hb']
        have : screenRowAt scr1 0 = scr.row0 := by
          unfold screenRowAt
          simp [hrow0eq]
        rw [this]
        exact hco.1
      · have hcache1 : (setLastDisplay m m.activeRow line).lastDisplay1 = line := by
          rw [hR]
          simp [setLastDisplay]
        rw [hcache1, hpadline]
        have : screenRowAt (applyOps scr1 (cs.map DispOp.printChar)) 1 =
            (applyOps scr1 (cs.map DispOp.printChar)).row1 := by
          unfold screenRowAt
          simp
        rw [← this, ha]

/-- Witness for C9's amended claim: printing `ok` over the cached `hi` row
keeps cache and hardware in step. -/
theorem printMenu_preserves_coherence_witness :
    coherent (printMenu exCachedMenu "ok").1
      (applyOps exCachedScreen (printMenu exCachedMenu "ok").2) :=
  printMenu_preserves_coherence exCachedMenu exCachedScreen "ok"
    (by decide) rfl (by decide) (by decide) (by decide) (by decide)
